import Mathlib

/-!
# Si4735 radio driver: command sequencing, status handling and configuration

A shallow embedding of `src/Si4735.cpp` (with `src/Si4735-private.h`).

* Bytes and 16-bit words are natural numbers; every place where the C++ code
  narrows to `byte` is an explicit `% 256`.
* The driver object (`Driver`) carries the member variables that the modelled
  functions read or write.  The chip on the bus is an arbitrary state machine
  (`Chip`), and every bus transaction is appended to a trace of `Event`s.
* `sendCommand` and `waitForInterrupt` call each other, and
  `waitForInterrupt` contains a `while` loop; both are given a fuel argument
  that bounds the nesting depth of calls and the number of loop iterations.
  A run that exhausts its fuel has `result = none` and still carries the world
  reached so far.
* The header `Si4735.h` is not part of the sources at hand: its numeric
  constants are collected in the structure `Consts`, a parameter of the
  driver functions; `sampleConsts` gives example values for statements at
  concrete inputs.
* Functions above the command layer take the command layer as an argument
  `send`; the driver is the instance `send := sendCommand chip k n`.
-/

namespace Si4735

/-! ## Bytes and words (Arduino helpers) -/

/-- Arduino `lowByte(w)`. -/
def lowByte (w : Nat) : Nat := w % 256

/-- Arduino `highByte(w)` for a 16-bit `word`. -/
def highByte (w : Nat) : Nat := (w / 256) % 256

/-- Arduino `word(h, l)`: both arguments are narrowed to bytes. -/
def word (h l : Nat) : Nat := (h % 256) * 256 + l % 256

/-- Arduino `constrain(amt, low, high)`. -/
def constrain (amt low high : Nat) : Nat :=
  if amt < low then low else if amt > high then high else amt

/-- Truth value of a C++ integer used as a condition. -/
def truthy (x : Nat) : Bool := x != 0

/-! ## Constants of the absent header -/

/-- Receiver mode.
Modelled from the spec: the `SI4735_MODE_*` constants of `Si4735.h` (absent),
"Mode: enumerated {FM, AM, ShortWave, LongWave}". -/
inductive Mode where
  | FM
  | AM
  | SW
  | LW
  deriving DecidableEq, Repr

/-- Numeric constants declared in `Si4735.h`, which is absent: they are
parameters of the development. -/
structure Consts where
  STATUS_CTS : Nat
  STATUS_STCINT : Nat
  STATUS_RDSINT : Nat
  CMD_POWER_UP : Nat
  CMD_POWER_DOWN : Nat
  CMD_SET_PROPERTY : Nat
  CMD_GET_PROPERTY : Nat
  CMD_GET_INT_STATUS : Nat
  CMD_FM_TUNE_FREQ : Nat
  CMD_FM_TUNE_STATUS : Nat
  CMD_FM_RDS_STATUS : Nat
  CMD_AM_TUNE_FREQ : Nat
  CMD_AM_TUNE_STATUS : Nat
  CMD_GPIO_CTL : Nat
  CMD_GPIO_SET : Nat
  FLG_CTSIEN : Nat
  FLG_GPO2IEN : Nat
  FLG_XOSCEN : Nat
  FUNC_FM : Nat
  FUNC_AM : Nat
  OUT_ANALOG : Nat
  FLG_GPO1OEN : Nat
  FLG_GPO2OEN : Nat
  FLG_GPO2LEVEL : Nat
  FLG_RDSIEN : Nat
  FLG_STCIEN : Nat
  FLG_INTACK : Nat
  FLG_RDSSYNCFOUND : Nat
  FLG_RDSRECV : Nat
  FLG_BLETHA_35 : Nat
  FLG_BLETHB_35 : Nat
  FLG_BLETHC_35 : Nat
  FLG_BLETHD_35 : Nat
  FLG_RDSEN : Nat
  PROP_GPO_IEN : Nat
  PROP_FM_SEEK_TUNE_SNR_THRESHOLD : Nat
  PROP_FM_SEEK_TUNE_RSSI_THRESHOLD : Nat
  PROP_AM_SEEK_TUNE_SNR_THRESHOLD : Nat
  PROP_AM_SEEK_TUNE_RSSI_THRESHOLD : Nat
  PROP_AM_SEEK_BAND_BOTTOM : Nat
  PROP_AM_SEEK_BAND_TOP : Nat
  PROP_FM_RDS_INT_SOURCE : Nat
  PROP_FM_RDS_INT_FIFO_COUNT : Nat
  PROP_FM_RDS_CONFIG : Nat
  PROP_RX_HARD_MUTE : Nat
  PIN_POWER_HW : Nat
  PIN_GPO2_HW : Nat
  PIN_SEN_HWH : Nat
  INTERFACE_SPI : Nat
  INTERFACE_I2C : Nat

/-- SPI command preambles and I2C addresses of `Si4735-private.h`. -/
def SI4735_CP_WRITE8 : Nat := 0x48
def SI4735_CP_READ1_GPO1 : Nat := 0xA0
def SI4735_CP_READ16_GPO1 : Nat := 0xE0
def SI4735_I2C_ADDR_L : Nat := 0x22 >>> 1
def SI4735_I2C_ADDR_H : Nat := 0xC6 >>> 1

/-! ## Driver state, bus and traces -/

/-- Member variables of the class `Si4735` used by the modelled functions. -/
structure Driver where
  mode : Mode
  seeking : Bool
  interrupt : Bool
  haverds : Bool
  status : Nat
  i2caddr : Nat
  pinPower : Nat
  pinReset : Nat
  pinGPO2 : Nat
  pinSEN : Nat
  response : List Nat
  deriving DecidableEq, Repr

/-- What the program does to the outside world, in order.  `tx` is one command
write transaction (all bytes clocked out between select and release, tagged
with the value `_seeking` had when the transaction started), `rx1` a one-byte
status read, `rx16` a sixteen-byte response read.  `polled` records the value
handed back by `getStatus`; it is bookkeeping, not a bus transaction. -/
inductive Event where
  | tx (seeking : Bool) (bytes : List Nat)
  | rx1 (b : Nat)
  | rx16 (bytes : List Nat)
  | polled (b : Nat)
  | delay (ms : Nat)
  | detachInterrupt (pin : Nat)
  | attachInterrupt (pin : Nat)
  | digitalWrite (pin : Nat) (high : Bool)
  | spiEnd
  deriving DecidableEq, Repr

/-- A simulated chip: how it answers a one-byte status read, a sixteen-byte
response read, and what an eight-byte command frame does to it. -/
structure Chip (σ : Type) where
  status : σ → Nat × σ
  response : σ → List Nat × σ
  command : List Nat → σ → σ

/-- Driver, chip and the trace of events so far. -/
structure World (σ : Type) where
  drv : Driver
  chip : σ
  trace : List Event

/-- Outcome of running a function: the world reached, and the returned value
when the function returned (`none` when the fuel ran out first). -/
structure Run (σ : Type) (α : Type) where
  world : World σ
  result : Option α

/-- A function of the driver that may fail to return. -/
abbrev Action (σ : Type) (α : Type) := World σ → Run σ α

/-- Return `a` in world `w`. -/
def Run.ret {σ α : Type} (a : α) (w : World σ) : Run σ α := ⟨w, some a⟩

/-- Sequencing: continue with `f` when the first part returned. -/
def Run.bind {σ α β : Type} (r : Run σ α) (f : α → Action σ β) : Run σ β :=
  match r.result with
  | some a => f a r.world
  | none => ⟨r.world, none⟩

/-- Append an event to the trace. -/
def World.log {σ : Type} (w : World σ) (e : Event) : World σ :=
  { w with trace := w.trace ++ [e] }

/-- Command frames written on the bus, in order. -/
def frames : List Event → List (List Nat)
  | [] => []
  | Event.tx _ bytes :: rest => bytes :: frames rest
  | _ :: rest => frames rest

/-- Bus transactions (writes and reads) of a trace. -/
def busEvents : List Event → List Event
  | [] => []
  | Event.tx s bytes :: rest => Event.tx s bytes :: busEvents rest
  | Event.rx1 b :: rest => Event.rx1 b :: busEvents rest
  | Event.rx16 bytes :: rest => Event.rx16 bytes :: busEvents rest
  | _ :: rest => busEvents rest

/-! ## Bus transport -/

/-- Arduino `delay(ms)`. -/
def delay {σ : Type} (ms : Nat) (w : World σ) : World σ := w.log (Event.delay ms)

/-- `Si4735::sendCommandInternal`: one write transaction.  On SPI
(`_i2caddr == 0`) the frame is preceded by the write preamble. -/
def sendCommandInternal {σ : Type} (chip : Chip σ) (frame : List Nat)
    (w : World σ) : World σ :=
  let bytes := frame.map (fun b => b % 256)
  if w.drv.i2caddr = 0 then
    { w with chip := chip.command bytes w.chip,
             trace := w.trace ++ [Event.tx w.drv.seeking (SI4735_CP_WRITE8 :: bytes)] }
  else
    { w with chip := chip.command bytes w.chip,
             trace := w.trace ++ [Event.tx w.drv.seeking bytes] }

/-- `Si4735::updateStatus`: one status-byte read, stored in `_status`.  The
bus is taken to deliver the byte (the I2C availability wait is not modelled). -/
def updateStatus {σ : Type} (chip : Chip σ) (w : World σ) : World σ :=
  let r := chip.status w.chip
  { w with drv := { w.drv with status := r.1 % 256 },
           chip := r.2,
           trace := w.trace ++ [Event.rx1 (r.1 % 256)] }

/-- `Si4735::getStatus`: refresh from the bus unless in interrupt mode, then
return the cached status. -/
def getStatus {σ : Type} (chip : Chip σ) (w : World σ) : Nat × World σ :=
  let w1 := if w.drv.interrupt then w else updateStatus chip w
  (w1.drv.status, w1.log (Event.polled w1.drv.status))

/-- `Si4735::getResponse(_response)`: read sixteen bytes into the response
buffer. -/
def getResponse {σ : Type} (chip : Chip σ) (w : World σ) : World σ :=
  let r := chip.response w.chip
  let bytes := (List.range 16).map (fun i => (r.1.getD i 0) % 256)
  { w with drv := { w.drv with response := bytes },
           chip := r.2,
           trace := w.trace ++ [Event.rx16 bytes] }

/-! ## Command sequencing -/

/-- The `while` loop of `Si4735::waitForInterrupt`
(`while(!(getStatus() & which)) if(!_interrupt) if(which == STCINT) delay(120);`). -/
def waitLoop {σ : Type} (chip : Chip σ) (k : Consts) :
    Nat → Nat → World σ → Run σ Unit
  | 0, _, w => ⟨w, none⟩
  | n + 1, which, w =>
    let s := getStatus chip w
    if truthy (s.1 &&& which) then ⟨s.2, some ()⟩
    else
      let w2 :=
        if !s.2.drv.interrupt then
          if which = k.STATUS_STCINT then delay 120 s.2 else s.2
        else s.2
      waitLoop chip k n which w2

mutual

/-- `Si4735::sendCommand`: wait for the chip, then write the frame. -/
def sendCommand {σ : Type} (chip : Chip σ) (k : Consts) :
    Nat → List Nat → World σ → Run σ Unit
  | 0, _, w => ⟨w, none⟩
  | n + 1, frame, w =>
    if w.drv.seeking then
      match waitForInterrupt chip k n k.STATUS_STCINT w with
      | ⟨w1, some _⟩ =>
        ⟨sendCommandInternal chip frame
          { w1 with drv := { w1.drv with seeking := false } }, some ()⟩
      | ⟨w1, none⟩ => ⟨w1, none⟩
    else
      match waitForInterrupt chip k n k.STATUS_CTS w with
      | ⟨w1, some _⟩ => ⟨sendCommandInternal chip frame w1, some ()⟩
      | ⟨w1, none⟩ => ⟨w1, none⟩

/-- `Si4735::waitForInterrupt(byte which)`: the `while` loop, and after it the
statement `sendCommand(SI4735_CMD_GET_INT_STATUS);`, which the C++ grammar
places outside the loop body. -/
def waitForInterrupt {σ : Type} (chip : Chip σ) (k : Consts) :
    Nat → Nat → World σ → Run σ Unit
  | 0, _, w => ⟨w, none⟩
  | n + 1, which, w =>
    match waitLoop chip k n (which % 256) w with
    | ⟨w1, some _⟩ => sendCommand chip k n [k.CMD_GET_INT_STATUS, 0, 0, 0, 0, 0, 0, 0] w1
    | ⟨w1, none⟩ => ⟨w1, none⟩

end

/-! ## Operations built on the command layer

The functions below reach the bus through `sendCommand`.  They are written
against a command layer `send`, which stands for the `sendCommand` of the
source; the driver itself is obtained with `send := sendCommand chip k n`. -/

/-- The type of `sendCommand` once chip, constants and fuel are fixed. -/
abbrev Send (σ : Type) := List Nat → Action σ Unit

/-- A command layer that writes the frame at once, without the readiness wait
of `sendCommand`.  It is used to read off which frames a function hands to the
command layer. -/
def writeOnly {σ : Type} (chip : Chip σ) : Send σ :=
  fun frame w => Run.ret () (sendCommandInternal chip frame w)

/-- `Si4735::setProperty`. -/
def setProperty {σ : Type} (send : Send σ) (k : Consts) (property value : Nat) :
    Action σ Unit := fun w =>
  (send [k.CMD_SET_PROPERTY, 0x00, highByte property, lowByte property,
         highByte value, lowByte value, 0, 0] w).bind fun _ w1 =>
  Run.ret () (delay 10 w1)

/-- `Si4735::getProperty`. -/
def getProperty {σ : Type} (send : Send σ) (chip : Chip σ) (k : Consts)
    (property : Nat) : Action σ Nat := fun w =>
  (send [k.CMD_GET_PROPERTY, 0x00, highByte property, lowByte property,
         0, 0, 0, 0] w).bind fun _ w1 =>
  let w2 := getResponse chip w1
  Run.ret (word (w2.drv.response.getD 2 0) (w2.drv.response.getD 3 0)) w2

/-- `Si4735::enableRDS`. -/
def enableRDS {σ : Type} (send : Send σ) (k : Consts) : Action σ Unit := fun w =>
  if w.drv.mode = Mode.FM then
    (setProperty send k k.PROP_FM_RDS_INT_SOURCE (word 0x00 k.FLG_RDSRECV) w).bind
      fun _ w1 =>
    (setProperty send k k.PROP_FM_RDS_INT_FIFO_COUNT (word 0x00 0x0C) w1).bind
      fun _ w2 =>
    setProperty send k k.PROP_FM_RDS_CONFIG
      (word (k.FLG_BLETHA_35 ||| k.FLG_BLETHB_35 ||| k.FLG_BLETHC_35 |||
             k.FLG_BLETHD_35) k.FLG_RDSEN) w2
  else Run.ret () w

/-- `Si4735::completeTune`. -/
def completeTune {σ : Type} (send : Send σ) (k : Consts) : Action σ Unit := fun w =>
  let w0 : World σ := { w with drv := { w.drv with seeking := true } }
  (match w0.drv.mode with
   | Mode.FM => send [k.CMD_FM_TUNE_STATUS, k.FLG_INTACK, 0, 0, 0, 0, 0, 0] w0
   | _ => send [k.CMD_AM_TUNE_STATUS, k.FLG_INTACK, 0, 0, 0, 0, 0, 0] w0).bind
    fun _ w1 =>
  if w1.drv.mode = Mode.FM then enableRDS send k w1 else Run.ret () w1

/-- `Si4735::setFrequency`. -/
def setFrequency {σ : Type} (send : Send σ) (k : Consts) (frequency : Nat) :
    Action σ Unit := fun w =>
  (match w.drv.mode with
   | Mode.FM =>
     send [k.CMD_FM_TUNE_FREQ, 0x00, highByte frequency, lowByte frequency,
           0, 0, 0, 0] w
   | _ =>
     send [k.CMD_AM_TUNE_FREQ, 0x00, highByte frequency, lowByte frequency,
           0x00, (if w.drv.mode = Mode.SW then 0x01 else 0x00), 0, 0] w).bind
    fun _ w1 =>
  completeTune send k w1

/-- `Si4735::setSeekThresholds`. -/
def setSeekThresholds {σ : Type} (send : Send σ) (k : Consts) (SNR RSSI : Nat) :
    Action σ Unit := fun w =>
  match w.drv.mode with
  | Mode.FM =>
    (setProperty send k k.PROP_FM_SEEK_TUNE_SNR_THRESHOLD
      (word 0x00 (constrain (SNR % 256) 0 127)) w).bind fun _ w1 =>
    setProperty send k k.PROP_FM_SEEK_TUNE_RSSI_THRESHOLD
      (word 0x00 (constrain (RSSI % 256) 0 127)) w1
  | _ =>
    (setProperty send k k.PROP_AM_SEEK_TUNE_SNR_THRESHOLD
      (word 0x00 (constrain (SNR % 256) 0 63)) w).bind fun _ w1 =>
    setProperty send k k.PROP_AM_SEEK_TUNE_RSSI_THRESHOLD
      (word 0x00 (constrain (RSSI % 256) 0 63)) w1

/-- `Si4735::readRDSGroup(word* block)`: the four words behind `block` are
passed in and handed back together with the returned flag. -/
def readRDSGroup {σ : Type} (send : Send σ) (chip : Chip σ) (k : Consts)
    (block : List Nat) : Action σ (Bool × List Nat) := fun w =>
  let s := getStatus chip w
  if !truthy (s.1 &&& k.STATUS_RDSINT) then Run.ret (false, block) s.2
  else
    (send [k.CMD_FM_RDS_STATUS, k.FLG_INTACK, 0, 0, 0, 0, 0, 0] s.2).bind
      fun _ w1 =>
    let w2 := getResponse chip w1
    let r := w2.drv.response
    let w3 : World σ :=
      { w2 with drv := { w2.drv with
          haverds := truthy (r.getD 1 0 &&& k.FLG_RDSSYNCFOUND) } }
    Run.ret (true, [word (r.getD 4 0) (r.getD 5 0), word (r.getD 6 0) (r.getD 7 0),
                    word (r.getD 8 0) (r.getD 9 0), word (r.getD 10 0) (r.getD 11 0)])
      w3

/-- `Si4735::volumeUp`.  `getVolume` and `setVolume` are defined in the absent
header and are parameters. -/
def volumeUp {σ : Type} (getVolume : Action σ Nat) (setVolume : Nat → Action σ Unit) :
    Action σ Bool := fun w =>
  (getVolume w).bind fun v w1 =>
  let volume := v % 256
  if volume < 63 then
    (setVolume ((volume + 1) % 256) w1).bind fun _ w2 => Run.ret true w2
  else Run.ret false w1

/-- `Si4735::volumeDown`.  `getVolume`, `setVolume` and `mute` are defined in
the absent header and are parameters. -/
def volumeDown {σ : Type} (getVolume : Action σ Nat) (setVolume : Nat → Action σ Unit)
    (mute : Action σ Unit) (alsomute : Bool) : Action σ Bool := fun w =>
  (getVolume w).bind fun v w1 =>
  let volume := v % 256
  if volume > 0 then
    (setVolume ((volume + 255) % 256) w1).bind fun _ w2 => Run.ret true w2
  else if alsomute then (mute w1).bind fun _ w2 => Run.ret false w2
  else Run.ret false w1

/-- `Si4735::unMute(bool minvol)`. -/
def unMute {σ : Type} (send : Send σ) (k : Consts) (setVolume : Nat → Action σ Unit)
    (minvol : Bool) : Action σ Unit := fun w =>
  (if minvol then setVolume 0 w else Run.ret () w).bind fun _ w1 =>
  setProperty send k k.PROP_RX_HARD_MUTE (word 0x00 0x00) w1

/-- `Si4735::end(bool hardoff)`. -/
def end_ {σ : Type} (send : Send σ) (k : Consts) (hardoff : Bool) : Action σ Unit :=
  fun w =>
  (send [k.CMD_POWER_DOWN, 0, 0, 0, 0, 0, 0, 0] w).bind fun _ w1 =>
  if hardoff then
    let w2 := if w1.drv.i2caddr = 0 then w1.log Event.spiEnd else w1
    let w3 := w2.log (Event.digitalWrite w2.drv.pinReset false)
    let w4 :=
      if w3.drv.pinPower ≠ k.PIN_POWER_HW then
        w3.log (Event.digitalWrite w3.drv.pinPower false)
      else w3
    Run.ret () w4
  else Run.ret () w1

/-- The `POWER_UP` argument of `Si4735::setMode` for function code `func`. -/
def powerUpArg (k : Consts) (pinGPO2 : Nat) (xosc : Bool) (func : Nat) : Nat :=
  k.FLG_CTSIEN ||| (if pinGPO2 = k.PIN_GPO2_HW then 0x00 else k.FLG_GPO2IEN) |||
    (if xosc then k.FLG_XOSCEN else 0x00) ||| func

/-- The value `Si4735::setMode` passes for `SI4735_PROP_GPO_IEN`, with the
grouping the C++ grammar gives the expression
`(CTSIEN | (_mode == FM) ? RDSIEN : 0x00) | STCIEN`: the conditional operator
binds weaker than `|`. -/
def gpoIenValue (k : Consts) (mode : Mode) : Nat :=
  word 0x00
    ((if truthy (k.FLG_CTSIEN ||| (if mode = Mode.FM then 1 else 0))
      then k.FLG_RDSIEN else 0x00) ||| k.FLG_STCIEN)

/-- `Si4735::setMode`.  `minvol` is the default argument of `unMute` and
`setVolume` the function it calls; both are declared in the absent header. -/
def setMode {σ : Type} (send : Send σ) (k : Consts) (setVolume : Nat → Action σ Unit)
    (minvol : Bool) (mode : Mode) (powerdown xosc interrupt : Bool) :
    Action σ Unit := fun w =>
  (if powerdown then end_ send k false w else Run.ret () w).bind fun _ w1 =>
  let w2 : World σ := { w1 with drv := { w1.drv with mode := mode, seeking := false } }
  let w3 := if w2.drv.interrupt then w2.log (Event.detachInterrupt w2.drv.pinGPO2) else w2
  let w4 : World σ := { w3 with drv := { w3.drv with interrupt := false } }
  (match w4.drv.mode with
   | Mode.FM =>
     send [k.CMD_POWER_UP, powerUpArg k w4.drv.pinGPO2 xosc k.FUNC_FM,
           k.OUT_ANALOG, 0, 0, 0, 0, 0] w4
   | _ =>
     send [k.CMD_POWER_UP, powerUpArg k w4.drv.pinGPO2 xosc k.FUNC_AM,
           k.OUT_ANALOG, 0, 0, 0, 0, 0] w4).bind fun _ w5 =>
  (send [k.CMD_GPIO_CTL,
         (if w5.drv.i2caddr ≠ 0 then k.FLG_GPO1OEN else 0x00) |||
           (if w5.drv.pinGPO2 = k.PIN_GPO2_HW then k.FLG_GPO2OEN else 0x00),
         0, 0, 0, 0, 0, 0] w5).bind fun _ w6 =>
  (if w6.drv.pinGPO2 ≠ k.PIN_GPO2_HW then
     send [k.CMD_GPIO_SET, k.FLG_GPO2LEVEL, 0, 0, 0, 0, 0, 0] w6
   else Run.ret () w6).bind fun _ w7 =>
  (if w7.drv.pinGPO2 ≠ k.PIN_GPO2_HW then
     setProperty send k k.PROP_GPO_IEN (gpoIenValue k w7.drv.mode) w7
   else Run.ret () w7).bind fun _ w8 =>
  let w9 : World σ :=
    { w8 with drv := { w8.drv with
        interrupt := interrupt && decide (w8.drv.pinGPO2 ≠ k.PIN_GPO2_HW) } }
  let w10 := if w9.drv.interrupt then w9.log (Event.attachInterrupt w9.drv.pinGPO2) else w9
  (unMute send k setVolume minvol w10).bind fun _ w11 =>
  match w11.drv.mode with
  | Mode.SW =>
    (setProperty send k k.PROP_AM_SEEK_BAND_BOTTOM 0x08FC w11).bind fun _ w12 =>
    setProperty send k k.PROP_AM_SEEK_BAND_TOP 0x59D8 w12
  | Mode.LW =>
    (setProperty send k k.PROP_AM_SEEK_BAND_BOTTOM 0x0099 w11).bind fun _ w12 =>
    setProperty send k k.PROP_AM_SEEK_BAND_BOTTOM 0x0117 w12
  | _ => Run.ret () w11

/-- The constructor `Si4735::Si4735`.  `old` holds the values the members have
before the constructor body runs (the static members start as in the
definitions at the end of `Si4735.cpp`). -/
def construct (k : Consts) (old : Driver)
    (interface pinPower pinReset pinGPO2 pinSEN : Nat) : Driver :=
  let d : Driver :=
    { old with mode := Mode.FM, pinPower := pinPower % 256, pinReset := pinReset % 256,
               pinGPO2 := pinGPO2 % 256, pinSEN := pinSEN % 256 }
  if interface % 256 = k.INTERFACE_SPI then { d with i2caddr := 0x00 }
  else if interface % 256 = k.INTERFACE_I2C then
    if d.pinSEN = k.PIN_SEN_HWH then { d with i2caddr := SI4735_I2C_ADDR_H }
    else { d with i2caddr := SI4735_I2C_ADDR_L }
  else d

/-! ## Interrupt handler -/

/-- `Si4735::interruptServiceRoutine`.  The first component of the state is the
function's `static volatile bool _getIntStatus` (initially `false`), the second
the world the handler runs in.  The handler calls `sendCommandInternal`, not
`sendCommand`. -/
def interruptServiceRoutine {σ : Type} (chip : Chip σ) (k : Consts)
    (st : Bool × World σ) : Bool × World σ :=
  if !st.1 then
    (true, sendCommandInternal chip [k.CMD_GET_INT_STATUS, 0, 0, 0, 0, 0, 0, 0] st.2)
  else
    (false, updateStatus chip st.2)

/-- The state after `n` successive invocations of the handler. -/
def isrRuns {σ : Type} (chip : Chip σ) (k : Consts) :
    Nat → Bool × World σ → Bool × World σ
  | 0, st => st
  | n + 1, st => interruptServiceRoutine chip k (isrRuns chip k n st)

/-! ## Properties of traces and concrete test fixtures -/

/-- Example values for the constants of the absent header (command, flag and
property numbers as in the chip's programming guide).  They serve to
instantiate statements at concrete inputs. -/
def sampleConsts : Consts where
  STATUS_CTS := 0x80
  STATUS_STCINT := 0x01
  STATUS_RDSINT := 0x04
  CMD_POWER_UP := 0x01
  CMD_POWER_DOWN := 0x11
  CMD_SET_PROPERTY := 0x12
  CMD_GET_PROPERTY := 0x13
  CMD_GET_INT_STATUS := 0x14
  CMD_FM_TUNE_FREQ := 0x20
  CMD_FM_TUNE_STATUS := 0x22
  CMD_FM_RDS_STATUS := 0x24
  CMD_AM_TUNE_FREQ := 0x40
  CMD_AM_TUNE_STATUS := 0x42
  CMD_GPIO_CTL := 0x80
  CMD_GPIO_SET := 0x81
  FLG_CTSIEN := 0x80
  FLG_GPO2IEN := 0x40
  FLG_XOSCEN := 0x10
  FUNC_FM := 0x00
  FUNC_AM := 0x01
  OUT_ANALOG := 0x05
  FLG_GPO1OEN := 0x02
  FLG_GPO2OEN := 0x04
  FLG_GPO2LEVEL := 0x04
  FLG_RDSIEN := 0x04
  FLG_STCIEN := 0x01
  FLG_INTACK := 0x01
  FLG_RDSSYNCFOUND := 0x04
  FLG_RDSRECV := 0x01
  FLG_BLETHA_35 := 0x40
  FLG_BLETHB_35 := 0x10
  FLG_BLETHC_35 := 0x04
  FLG_BLETHD_35 := 0x01
  FLG_RDSEN := 0x01
  PROP_GPO_IEN := 0x0001
  PROP_FM_SEEK_TUNE_SNR_THRESHOLD := 0x1403
  PROP_FM_SEEK_TUNE_RSSI_THRESHOLD := 0x1404
  PROP_AM_SEEK_TUNE_SNR_THRESHOLD := 0x3403
  PROP_AM_SEEK_TUNE_RSSI_THRESHOLD := 0x3404
  PROP_AM_SEEK_BAND_BOTTOM := 0x3400
  PROP_AM_SEEK_BAND_TOP := 0x3401
  PROP_FM_RDS_INT_SOURCE := 0x1500
  PROP_FM_RDS_INT_FIFO_COUNT := 0x1501
  PROP_FM_RDS_CONFIG := 0x1502
  PROP_RX_HARD_MUTE := 0x4001
  PIN_POWER_HW := 0xFF
  PIN_GPO2_HW := 0xFF
  PIN_SEN_HWH := 0xFF
  INTERFACE_SPI := 0x00
  INTERFACE_I2C := 0x01

/-- A driver in polling mode on the two-wire bus, no seek outstanding, status
cache and response buffer cleared. -/
def idleDriver (mode : Mode) : Driver where
  mode := mode
  seeking := false
  interrupt := false
  haverds := false
  status := 0x00
  i2caddr := SI4735_I2C_ADDR_L
  pinPower := 8
  pinReset := 9
  pinGPO2 := 2
  pinSEN := 10
  response := List.replicate 16 0

/-- A chip that is always ready: every status read reports ClearToSend and
SeekTuneComplete, responses are all zero, commands have no effect. -/
def readyChip : Chip Unit where
  status := fun u => (0x81, u)
  response := fun u => (List.replicate 16 0, u)
  command := fun _ u => u

/-- The world in which an `idleDriver` faces the `readyChip`, empty trace. -/
def idleWorld (mode : Mode) : World Unit := ⟨idleDriver mode, (), []⟩

/-- State of the simulated property store: the stored values and the response
latched by the last `GET_PROPERTY`. -/
structure PropStore where
  store : Nat → Nat
  reply : List Nat

/-- The simulated bus of the property round trip: a `SET_PROPERTY` frame
stores the value of argument bytes 4-5 under the identifier of argument bytes
2-3 (both big-endian); a `GET_PROPERTY` frame latches a response that carries
the stored value big-endian in bytes 2-3.  The chip is always ready. -/
def propChip (k : Consts) : Chip PropStore where
  status := fun st => (0x81, st)
  response := fun st => (st.reply, st)
  command := fun frame st =>
    let id := word (frame.getD 2 0) (frame.getD 3 0)
    if frame.getD 0 0 = k.CMD_SET_PROPERTY then
      { st with store := fun i =>
          if i = id then word (frame.getD 4 0) (frame.getD 5 0) else st.store i }
    else if frame.getD 0 0 = k.CMD_GET_PROPERTY then
      { st with reply := [0x80, 0x00, highByte (st.store id), lowByte (st.store id)] }
    else st

/-- An `idleDriver` facing an empty property store. -/
def propWorld : World PropStore := ⟨idleDriver Mode.FM, ⟨fun _ => 0, []⟩, []⟩

/-- A `setVolume` that returns at once; used where `setMode` is run with
`unMute`'s volume reset switched off. -/
def noVolume {σ : Type} : Nat → Action σ Unit := fun _ w => Run.ret () w

/-! ## Basic facts about traces and runs -/

theorem frames_append (l₁ l₂ : List Event) :
    frames (l₁ ++ l₂) = frames l₁ ++ frames l₂ := by
  induction l₁ with
  | nil => rfl
  | cons e l ih => cases e <;> simp [frames, ih]

theorem Run.bind_result_none {σ α β : Type} (r : Run σ α) (f : α → Action σ β)
    (h : r.result = none) : (r.bind f).result = none := by
  simp [Run.bind, h]

theorem Run.bind_world_none {σ α β : Type} (r : Run σ α) (f : α → Action σ β)
    (h : r.result = none) : (r.bind f).world = r.world := by
  simp [Run.bind, h]

/-- What `getStatus` appends to the trace contains no command write. -/
theorem getStatus_trace {σ : Type} (chip : Chip σ) (w : World σ) :
    ∃ ev, (getStatus chip w).2.trace = w.trace ++ ev ∧ frames ev = [] := by
  unfold getStatus
  by_cases h : w.drv.interrupt
  · exact ⟨[Event.polled w.drv.status], by simp [h, World.log], rfl⟩
  · exact ⟨[Event.rx1 ((chip.status w.chip).1 % 256),
            Event.polled ((chip.status w.chip).1 % 256)],
      by simp [h, World.log, updateStatus], rfl⟩

/-- The wait loop appends no command write to the trace. -/
theorem waitLoop_trace {σ : Type} (chip : Chip σ) (k : Consts) (n which : Nat) :
    ∀ w : World σ, ∃ ev, (waitLoop chip k n which w).world.trace = w.trace ++ ev ∧
      frames ev = [] := by
  induction n with
  | zero => intro w; exact ⟨[], by simp [waitLoop], rfl⟩
  | succ n ih =>
    intro w
    obtain ⟨e1, h1, f1⟩ := getStatus_trace chip w
    unfold waitLoop
    simp only
    split
    · exact ⟨e1, h1, f1⟩
    · split
      · split
        · obtain ⟨e2, h2, f2⟩ := ih (delay 120 (getStatus chip w).2)
          refine ⟨e1 ++ [Event.delay 120] ++ e2, ?_, ?_⟩
          · rw [h2]; simp [delay, World.log, h1]
          · simp [frames_append, f1, f2, frames]
        · obtain ⟨e2, h2, f2⟩ := ih (getStatus chip w).2
          exact ⟨e1 ++ e2, by rw [h2, h1]; simp, by simp [frames_append, f1, f2]⟩
      · obtain ⟨e2, h2, f2⟩ := ih (getStatus chip w).2
        exact ⟨e1 ++ e2, by rw [h2, h1]; simp, by simp [frames_append, f1, f2]⟩

/-- When the wait loop returns, the cached status carries the awaited bit and
the last entry of the trace is the poll that reported it. -/
theorem waitLoop_returns {σ : Type} (chip : Chip σ) (k : Consts) (n which : Nat) :
    ∀ w : World σ, (waitLoop chip k n which w).result = some () →
      truthy ((waitLoop chip k n which w).world.drv.status &&& which) = true ∧
      ∃ pre, (waitLoop chip k n which w).world.trace =
        pre ++ [Event.polled (waitLoop chip k n which w).world.drv.status] := by
  induction n with
  | zero => intro w h; simp [waitLoop] at h
  | succ n ih =>
    intro w
    unfold waitLoop
    simp only
    split
    · rename_i hb
      intro _
      refine ⟨?_, ?_⟩
      · simpa [getStatus, World.log] using hb
      · by_cases hi : w.drv.interrupt
        · exact ⟨w.trace, by simp [getStatus, hi, World.log]⟩
        · exact ⟨w.trace ++ [Event.rx1 ((chip.status w.chip).1 % 256)],
            by simp [getStatus, hi, World.log, updateStatus]⟩
    · intro h; exact ih _ h

/-- The wait loop itself does return: on the always-ready chip one iteration
suffices, for either awaited bit. -/
theorem waitLoop_ready_returns (n : Nat) (mode : Mode) :
    (waitLoop readyChip sampleConsts (n + 1) sampleConsts.STATUS_CTS
      (idleWorld mode)).result = some () ∧
    (waitLoop readyChip sampleConsts (n + 1) sampleConsts.STATUS_STCINT
      (idleWorld mode)).result = some () := by
  constructor <;>
    simp [waitLoop, getStatus, updateStatus, World.log, idleWorld, idleDriver, readyChip,
      sampleConsts, truthy]

/-- Neither `sendCommand` nor `waitForInterrupt` returns, whatever the fuel:
each needs the other to return first. -/
theorem sequencer_never_returns {σ : Type} (chip : Chip σ) (k : Consts) (n : Nat) :
    (∀ frame (w : World σ), (sendCommand chip k n frame w).result = none) ∧
    (∀ which (w : World σ), (waitForInterrupt chip k n which w).result = none) := by
  induction n with
  | zero => exact ⟨fun _ _ => by simp [sendCommand], fun _ _ => by simp [waitForInterrupt]⟩
  | succ n ih =>
    obtain ⟨ihS, ihW⟩ := ih
    refine ⟨?_, ?_⟩
    · intro frame w
      unfold sendCommand
      split
      · have h := ihW k.STATUS_STCINT w
        split
        · rename_i heq; rw [heq] at h; simp at h
        · rfl
      · have h := ihW k.STATUS_CTS w
        split
        · rename_i heq; rw [heq] at h; simp at h
        · rfl
    · intro which w
      unfold waitForInterrupt
      split
      · exact ihS _ _
      · rfl

theorem sendCommand_result {σ : Type} (chip : Chip σ) (k : Consts) (n : Nat)
    (frame : List Nat) (w : World σ) : (sendCommand chip k n frame w).result = none :=
  (sequencer_never_returns chip k n).1 frame w

/-- Neither `sendCommand` nor `waitForInterrupt` appends a command write to
the trace. -/
theorem sequencer_trace {σ : Type} (chip : Chip σ) (k : Consts) (n : Nat) :
    (∀ frame (w : World σ), ∃ ev,
      (sendCommand chip k n frame w).world.trace = w.trace ++ ev ∧ frames ev = []) ∧
    (∀ which (w : World σ), ∃ ev,
      (waitForInterrupt chip k n which w).world.trace = w.trace ++ ev ∧ frames ev = []) := by
  induction n with
  | zero =>
    exact ⟨fun _ w => ⟨[], by simp [sendCommand], rfl⟩,
           fun _ w => ⟨[], by simp [waitForInterrupt], rfl⟩⟩
  | succ n ih =>
    obtain ⟨ihS, ihW⟩ := ih
    refine ⟨?_, ?_⟩
    · intro frame w
      unfold sendCommand
      split
      · have h := (sequencer_never_returns chip k n).2 k.STATUS_STCINT w
        obtain ⟨ev, he, hf⟩ := ihW k.STATUS_STCINT w
        split
        · rename_i heq; rw [heq] at h; simp at h
        · rename_i heq; rw [heq] at he; exact ⟨ev, he, hf⟩
      · have h := (sequencer_never_returns chip k n).2 k.STATUS_CTS w
        obtain ⟨ev, he, hf⟩ := ihW k.STATUS_CTS w
        split
        · rename_i heq; rw [heq] at h; simp at h
        · rename_i heq; rw [heq] at he; exact ⟨ev, he, hf⟩
    · intro which w
      obtain ⟨e1, h1, f1⟩ := waitLoop_trace chip k n (which % 256) w
      unfold waitForInterrupt
      split
      · rename_i w1 _ heq
        rw [heq] at h1
        obtain ⟨e2, h2, f2⟩ := ihS [k.CMD_GET_INT_STATUS, 0, 0, 0, 0, 0, 0, 0] w1
        refine ⟨e1 ++ e2, ?_, by simp [frames_append, f1, f2]⟩
        rw [h2]; simp only at h1; rw [h1]; simp
      · rename_i heq; rw [heq] at h1; exact ⟨e1, h1, f1⟩

theorem sendCommand_frames {σ : Type} (chip : Chip σ) (k : Consts) (n : Nat)
    (frame : List Nat) (w : World σ) :
    frames (sendCommand chip k n frame w).world.trace = frames w.trace := by
  obtain ⟨ev, he, hf⟩ := (sequencer_trace chip k n).1 frame w
  rw [he, frames_append, hf]; simp

@[simp] theorem Run.ret_bind {σ α β : Type} (a : α) (w : World σ) (f : α → Action σ β) :
    (Run.ret a w).bind f = f a w := rfl

/-- A function that starts with `sendCommand` does not get past it. -/
theorem sendCommand_bind {σ β : Type} (chip : Chip σ) (k : Consts) (n : Nat)
    (frame : List Nat) (w : World σ) (f : Unit → Action σ β) :
    ((sendCommand chip k n frame w).bind f).result = none ∧
    frames ((sendCommand chip k n frame w).bind f).world.trace = frames w.trace := by
  have h := sendCommand_result chip k n frame w
  exact ⟨Run.bind_result_none _ _ h,
    by rw [Run.bind_world_none _ _ h]; exact sendCommand_frames chip k n frame w⟩

/-- Over `sendCommand`, `setProperty` neither returns nor writes a frame. -/
theorem setProperty_stalls {σ : Type} (chip : Chip σ) (k : Consts) (n property value : Nat)
    (w : World σ) :
    (setProperty (sendCommand chip k n) k property value w).result = none ∧
    frames (setProperty (sendCommand chip k n) k property value w).world.trace =
      frames w.trace := by
  unfold setProperty
  exact sendCommand_bind chip k n _ w _

/-- Over `sendCommand`, `setFrequency` neither returns nor writes a frame. -/
theorem setFrequency_stalls {σ : Type} (chip : Chip σ) (k : Consts) (n frequency : Nat)
    (w : World σ) :
    (setFrequency (sendCommand chip k n) k frequency w).result = none ∧
    frames (setFrequency (sendCommand chip k n) k frequency w).world.trace =
      frames w.trace := by
  unfold setFrequency
  cases w.drv.mode <;> exact sendCommand_bind chip k n _ w _

/-! ## C1: `sendCommand` sees the awaited bit and still does not write -/

/-- C2 (code defect). Polling mode, no seek outstanding, a chip whose every
status read asserts ClearToSend: for every fuel and every frame `sendCommand`
does not return and no command frame reaches the bus, because
`waitForInterrupt` ends by calling `sendCommand` again. -/
theorem sendCommand_polling_never_completes (n : Nat) (frame : List Nat) (mode : Mode) :
    (idleWorld mode).drv.interrupt = false ∧ (idleWorld mode).drv.seeking = false ∧
    truthy ((readyChip.status ()).1 &&& sampleConsts.STATUS_CTS) = true ∧
    (sendCommand readyChip sampleConsts n frame (idleWorld mode)).result = none ∧
    frames (sendCommand readyChip sampleConsts n frame (idleWorld mode)).world.trace = [] := by
  refine ⟨rfl, rfl, by decide, sendCommand_result _ _ _ _ _, ?_⟩
  rw [sendCommand_frames]; rfl

/-! ## C3: `setFrequency` does not return -/

/-- C3 (code defect). On a chip whose every status read reports
SeekTuneComplete, in each of the four modes and for every frequency and fuel,
`setFrequency` does not return: it stalls in its first `sendCommand`, before
the tune frame is written and before `completeTune` sets or clears
`_seeking`. -/
theorem setFrequency_never_returns (n : Nat) (mode : Mode) (f : Nat) :
    truthy ((readyChip.status ()).1 &&& sampleConsts.STATUS_STCINT) = true ∧
    (setFrequency (sendCommand readyChip sampleConsts n) sampleConsts f
      (idleWorld mode)).result = none ∧
    frames (setFrequency (sendCommand readyChip sampleConsts n) sampleConsts f
      (idleWorld mode)).world.trace = [] := by
  refine ⟨by decide, (setFrequency_stalls _ _ _ _ _).1, ?_⟩
  rw [(setFrequency_stalls _ _ _ _ _).2]; rfl

/-! ## C4: `readRDSGroup` without a pending RDS interrupt -/

theorem busEvents_append (l₁ l₂ : List Event) :
    busEvents (l₁ ++ l₂) = busEvents l₁ ++ busEvents l₂ := by
  induction l₁ with
  | nil => rfl
  | cons e l ih => cases e <;> simp [busEvents, ih]

/-- C4, as stated, fails in polling mode: with the RDS bit clear in the cached
status (and in the status the chip reports), `readRDSGroup` returns false but
has performed a status read on the bus and has replaced the cached status. -/
theorem readRDSGroup_polling_reads_bus :
    (idleWorld Mode.FM).drv.interrupt = false ∧
    truthy ((idleWorld Mode.FM).drv.status &&& sampleConsts.STATUS_RDSINT) = false ∧
    busEvents (idleWorld Mode.FM).trace = [] ∧
    (readRDSGroup (sendCommand readyChip sampleConsts 4) readyChip sampleConsts
      [1, 2, 3, 4] (idleWorld Mode.FM)).result = some (false, [1, 2, 3, 4]) ∧
    busEvents (readRDSGroup (sendCommand readyChip sampleConsts 4) readyChip sampleConsts
      [1, 2, 3, 4] (idleWorld Mode.FM)).world.trace = [Event.rx1 0x81] ∧
    (readRDSGroup (sendCommand readyChip sampleConsts 4) readyChip sampleConsts
      [1, 2, 3, 4] (idleWorld Mode.FM)).world.drv.status = 0x81 := by
  decide

/-- C4, amended. Let `s` be the status `getStatus` hands back: the cached byte
in interrupt mode, the byte freshly read from the bus in polling mode.  If `s`
has the RDS-interrupt bit clear, `readRDSGroup` returns false with the output
block, the response buffer and the chip's command input untouched and no frame
written; in interrupt mode there is no bus transaction and the driver state is
unchanged, in polling mode the one bus transaction is the status read, whose
byte replaces the cached status. -/
theorem readRDSGroup_without_pending_rds {σ : Type} (send : Send σ) (chip : Chip σ)
    (k : Consts) (block : List Nat) (w : World σ)
    (h : truthy ((if w.drv.interrupt then w.drv.status
                  else (chip.status w.chip).1 % 256) &&& k.STATUS_RDSINT) = false) :
    (readRDSGroup send chip k block w).result = some (false, block) ∧
    (readRDSGroup send chip k block w).world.drv.response = w.drv.response ∧
    frames (readRDSGroup send chip k block w).world.trace = frames w.trace ∧
    busEvents (readRDSGroup send chip k block w).world.trace =
      busEvents w.trace ++
        (if w.drv.interrupt then [] else [Event.rx1 ((chip.status w.chip).1 % 256)]) ∧
    (readRDSGroup send chip k block w).world.drv =
      (if w.drv.interrupt then w.drv
       else { w.drv with status := (chip.status w.chip).1 % 256 }) ∧
    (readRDSGroup send chip k block w).world.chip =
      (if w.drv.interrupt then w.chip else (chip.status w.chip).2) := by
  by_cases hi : w.drv.interrupt
  · simp only [hi, if_true] at h
    simp [readRDSGroup, getStatus, hi, h, Run.ret, World.log, frames_append,
      busEvents_append, frames, busEvents]
  · have hi2 : w.drv.interrupt = false := by simpa using hi
    rw [hi2] at h
    simp only [Bool.false_eq_true, if_false] at h
    simp [readRDSGroup, getStatus, hi, h, Run.ret, World.log, updateStatus, frames_append,
      busEvents_append, frames, busEvents]

/-- The amended C4 at a concrete polling-mode input. -/
theorem readRDSGroup_without_pending_rds_witness :
    truthy ((if (idleWorld Mode.FM).drv.interrupt then (idleWorld Mode.FM).drv.status
             else (readyChip.status (idleWorld Mode.FM).chip).1 % 256) &&&
            sampleConsts.STATUS_RDSINT) = false ∧
    (readRDSGroup (writeOnly readyChip) readyChip sampleConsts [1, 2, 3, 4]
      (idleWorld Mode.FM)).result = some (false, [1, 2, 3, 4]) :=
  ⟨by decide,
   (readRDSGroup_without_pending_rds (writeOnly readyChip) readyChip sampleConsts
      [1, 2, 3, 4] (idleWorld Mode.FM) (by decide)).1⟩

/-! ## C5: volume steps -/

/-- C5. Let `getVolume` return the byte `v`.  `volumeUp` calls `setVolume (v+1)`
and returns true when `v < 63`, and otherwise returns false at once, in the
state `getVolume` left; `volumeDown` calls `setVolume (v-1)` and returns true
when `v > 0`, and otherwise returns false, after calling `mute` when `alsomute`
is set and without calling anything when it is not. -/
theorem volume_steps {σ : Type} (getVolume : Action σ Nat)
    (setVolume : Nat → Action σ Unit) (mute : Action σ Unit) (alsomute : Bool)
    (w w1 : World σ) (v : Nat) (hv : getVolume w = ⟨w1, some v⟩) (hb : v < 256) :
    volumeUp getVolume setVolume w =
      (if v < 63 then (setVolume (v + 1) w1).bind fun _ w2 => Run.ret true w2
       else Run.ret false w1) ∧
    volumeDown getVolume setVolume mute alsomute w =
      (if 0 < v then (setVolume (v - 1) w1).bind fun _ w2 => Run.ret true w2
       else if alsomute then (mute w1).bind fun _ w2 => Run.ret false w2
       else Run.ret false w1) := by
  have hm : v % 256 = v := Nat.mod_eq_of_lt hb
  refine ⟨?_, ?_⟩
  · unfold volumeUp
    rw [hv]
    simp only [Run.bind, hm]
    by_cases h63 : v < 63
    · have : (v + 1) % 256 = v + 1 := Nat.mod_eq_of_lt (by omega)
      simp [h63, this]
    · simp [h63]
  · unfold volumeDown
    rw [hv]
    simp only [Run.bind, hm]
    by_cases h0 : 0 < v
    · have : (v + 255) % 256 = v - 1 := by omega
      simp [h0, this]
    · simp [h0]

/-- C5 at a concrete input: volume 62 is raised to 63 and `volumeUp` returns true. -/
theorem volume_steps_witness :
    (fun w : World Unit => Run.ret 62 w) (idleWorld Mode.FM) = ⟨idleWorld Mode.FM, some 62⟩ ∧
    62 < 256 ∧
    (volumeUp (fun w : World Unit => Run.ret 62 w) noVolume (idleWorld Mode.FM)).result =
      some true :=
  ⟨rfl, by decide, by
    rw [(volume_steps (fun w : World Unit => Run.ret 62 w) noVolume (noVolume 0) true
      (idleWorld Mode.FM) (idleWorld Mode.FM) 62 rfl (by decide)).1]
    rfl⟩

/-! ## Facts shared by the remaining sections -/

theorem bind_of_stalled {σ α β : Type} (r : Run σ α) (f : α → Action σ β)
    (t : List (List Nat)) (h : r.result = none ∧ frames r.world.trace = t) :
    (r.bind f).result = none ∧ frames (r.bind f).world.trace = t := by
  refine ⟨Run.bind_result_none _ _ h.1, ?_⟩
  rw [Run.bind_world_none _ _ h.1]; exact h.2

theorem sendCommand_stalls {σ : Type} (chip : Chip σ) (k : Consts) (n : Nat)
    (frame : List Nat) (w : World σ) :
    (sendCommand chip k n frame w).result = none ∧
    frames (sendCommand chip k n frame w).world.trace = frames w.trace :=
  ⟨sendCommand_result chip k n frame w, sendCommand_frames chip k n frame w⟩

@[simp] theorem sendCommandInternal_drv {σ : Type} (chip : Chip σ) (frame : List Nat)
    (w : World σ) : (sendCommandInternal chip frame w).drv = w.drv := by
  unfold sendCommandInternal; split <;> rfl

theorem sendCommandInternal_frames {σ : Type} (chip : Chip σ) (frame : List Nat)
    (w : World σ) :
    frames (sendCommandInternal chip frame w).trace =
      frames w.trace ++
        [(if w.drv.i2caddr = 0 then [SI4735_CP_WRITE8] else []) ++ frame.map (fun b => b % 256)] := by
  unfold sendCommandInternal; split <;> simp [frames_append, frames]

theorem setProperty_writeOnly {σ : Type} (chip : Chip σ) (k : Consts) (property value : Nat)
    (w : World σ) :
    setProperty (writeOnly chip) k property value w =
      Run.ret () (delay 10 (sendCommandInternal chip
        [k.CMD_SET_PROPERTY, 0x00, highByte property, lowByte property,
         highByte value, lowByte value, 0, 0] w)) := rfl

theorem highByte_mod (w : Nat) : highByte w % 256 = highByte w := by
  unfold highByte; omega

theorem lowByte_mod (w : Nat) : lowByte w % 256 = lowByte w := by
  unfold lowByte; omega

theorem constrain_zero (x hi : Nat) : constrain x 0 hi = min x hi := by
  unfold constrain; simp; split <;> omega

@[simp] theorem delay_drv {σ : Type} (ms : Nat) (w : World σ) : (delay ms w).drv = w.drv := rfl

/-! ## C6: seek thresholds -/

/-- What `setSeekThresholds` hands to the command layer: with the frames
written at once (two-wire bus), the two `SET_PROPERTY` frames carry the SNR and
RSSI threshold properties of the mode's family with the values `min SNR 127`,
`min RSSI 127` (FM) or `min SNR 63`, `min RSSI 63` (AM, SW, LW) and a zero high
byte. -/
theorem setSeekThresholds_over_writeOnly {σ : Type} (chip : Chip σ) (k : Consts)
    (SNR RSSI : Nat) (w : World σ) (hS : SNR < 256) (hR : RSSI < 256)
    (hbus : w.drv.i2caddr ≠ 0) :
    (setSeekThresholds (writeOnly chip) k SNR RSSI w).result = some () ∧
    frames (setSeekThresholds (writeOnly chip) k SNR RSSI w).world.trace =
      frames w.trace ++
        (if w.drv.mode = Mode.FM then
          [[k.CMD_SET_PROPERTY % 256, 0, highByte k.PROP_FM_SEEK_TUNE_SNR_THRESHOLD,
            lowByte k.PROP_FM_SEEK_TUNE_SNR_THRESHOLD, 0, min SNR 127, 0, 0],
           [k.CMD_SET_PROPERTY % 256, 0, highByte k.PROP_FM_SEEK_TUNE_RSSI_THRESHOLD,
            lowByte k.PROP_FM_SEEK_TUNE_RSSI_THRESHOLD, 0, min RSSI 127, 0, 0]]
         else
          [[k.CMD_SET_PROPERTY % 256, 0, highByte k.PROP_AM_SEEK_TUNE_SNR_THRESHOLD,
            lowByte k.PROP_AM_SEEK_TUNE_SNR_THRESHOLD, 0, min SNR 63, 0, 0],
           [k.CMD_SET_PROPERTY % 256, 0, highByte k.PROP_AM_SEEK_TUNE_RSSI_THRESHOLD,
            lowByte k.PROP_AM_SEEK_TUNE_RSSI_THRESHOLD, 0, min RSSI 63, 0, 0]]) := by
  have e1 : SNR % 256 = SNR := Nat.mod_eq_of_lt hS
  have e2 : RSSI % 256 = RSSI := Nat.mod_eq_of_lt hR
  have h127 : ∀ x, highByte (word 0 (min x 127)) = 0 ∧ lowByte (word 0 (min x 127)) = min x 127 := by
    intro x; unfold highByte lowByte word; omega
  have h63 : ∀ x, highByte (word 0 (min x 63)) = 0 ∧ lowByte (word 0 (min x 63)) = min x 63 := by
    intro x; unfold highByte lowByte word; omega
  unfold setSeekThresholds
  cases hm : w.drv.mode <;>
    simp [setProperty_writeOnly, delay, World.log, Run.ret, Run.bind, frames_append, frames,
      sendCommandInternal_frames, hbus, e1, e2, constrain_zero, h127, h63, highByte_mod,
      lowByte_mod]

theorem setSeekThresholds_stalls {σ : Type} (chip : Chip σ) (k : Consts) (n SNR RSSI : Nat)
    (w : World σ) :
    (setSeekThresholds (sendCommand chip k n) k SNR RSSI w).result = none ∧
    frames (setSeekThresholds (sendCommand chip k n) k SNR RSSI w).world.trace =
      frames w.trace := by
  unfold setSeekThresholds
  cases w.drv.mode <;> exact bind_of_stalled _ _ _ (setProperty_stalls chip k n _ _ w)

/-- C6 (code defect). For every chip, fuel, state and pair of inputs,
`setSeekThresholds` does not return and writes no frame: no threshold property
reaches the chip, because `setProperty` stalls in `sendCommand`. -/
theorem setSeekThresholds_writes_no_property {σ : Type} (chip : Chip σ) (k : Consts)
    (n SNR RSSI : Nat) (w : World σ) :
    (setSeekThresholds (sendCommand chip k n) k SNR RSSI w).result = none ∧
    frames (setSeekThresholds (sendCommand chip k n) k SNR RSSI w).world.trace =
      frames w.trace ∧
    frames (setSeekThresholds (sendCommand readyChip sampleConsts n) sampleConsts 200 20
      (idleWorld Mode.AM)).world.trace = [] := by
  refine ⟨(setSeekThresholds_stalls chip k n SNR RSSI w).1,
          (setSeekThresholds_stalls chip k n SNR RSSI w).2, ?_⟩
  rw [(setSeekThresholds_stalls _ _ _ _ _ _).2]; rfl

/-! ## C7: property round trip -/

/-- With the frames written at once, `setProperty` followed by `getProperty`
on the simulated property store returns the value written. -/
theorem property_round_trip_over_writeOnly (id v : Nat) (w : World PropStore)
    (hid : id < 65536) (hv : v < 65536) :
    (getProperty (writeOnly (propChip sampleConsts)) (propChip sampleConsts) sampleConsts id
      (setProperty (writeOnly (propChip sampleConsts)) sampleConsts id v w).world).result =
      some v := by
  have hw : ∀ x, x < 65536 → word (highByte x) (lowByte x) = x := by
    intro x hx; unfold word highByte lowByte; omega
  simp [getProperty, setProperty_writeOnly, writeOnly, Run.ret, Run.bind, getResponse,
    sendCommandInternal, propChip, sampleConsts, delay, World.log, highByte_mod, lowByte_mod]
  split <;> simp [hw, hv, hid, List.range, List.range.loop, highByte_mod, lowByte_mod]

theorem getProperty_stalls {σ : Type} (chip : Chip σ) (k : Consts) (n property : Nat)
    (w : World σ) :
    (getProperty (sendCommand chip k n) chip k property w).result = none ∧
    frames (getProperty (sendCommand chip k n) chip k property w).world.trace =
      frames w.trace := by
  unfold getProperty
  exact sendCommand_bind chip k n _ w _

/-- C7 (code defect). On the simulated property store, for every fuel,
identifier and value, `setProperty` does not return and no frame reaches the
store, and `getProperty` does not return from any state: the round trip yields
no value. -/
theorem property_round_trip_never_returns (n id v : Nat) :
    (setProperty (sendCommand (propChip sampleConsts) sampleConsts n) sampleConsts id v
      propWorld).result = none ∧
    frames (setProperty (sendCommand (propChip sampleConsts) sampleConsts n) sampleConsts id v
      propWorld).world.trace = [] ∧
    ∀ w : World PropStore,
      (getProperty (sendCommand (propChip sampleConsts) sampleConsts n)
        (propChip sampleConsts) sampleConsts id w).result = none := by
  refine ⟨(setProperty_stalls _ _ _ _ _ _).1, ?_, fun w => (getProperty_stalls _ _ _ _ w).1⟩
  rw [(setProperty_stalls _ _ _ _ _ _).2]; rfl

/-! ## C8: bus address chosen by the constructor -/

/-- C8. For the two-wire interface the constructor sets `_i2caddr` to
`0xC6 >> 1 = 0x63` exactly when `pinSEN` is the wired-high marker and to
`0x22 >> 1 = 0x11` otherwise; for the serial-peripheral interface it sets it to
`0x00`.  With address `0x00` a command write is led by the write preamble, with
a two-wire address it is the bare frame. -/
theorem construct_i2caddr {σ : Type} (k : Consts) (old : Driver)
    (pinPower pinReset pinGPO2 pinSEN : Nat) (chip : Chip σ) (c : σ) (frame : List Nat)
    (hne : k.INTERFACE_I2C ≠ k.INTERFACE_SPI) (hspi : k.INTERFACE_SPI < 256)
    (hi2c : k.INTERFACE_I2C < 256) (hsen : pinSEN < 256) :
    (construct k old k.INTERFACE_I2C pinPower pinReset pinGPO2 pinSEN).i2caddr =
      (if pinSEN = k.PIN_SEN_HWH then 0x63 else 0x11) ∧
    (construct k old k.INTERFACE_SPI pinPower pinReset pinGPO2 pinSEN).i2caddr = 0x00 ∧
    SI4735_I2C_ADDR_H = 0x63 ∧ SI4735_I2C_ADDR_L = 0x11 ∧
    frames (sendCommandInternal chip frame
      ⟨construct k old k.INTERFACE_SPI pinPower pinReset pinGPO2 pinSEN, c, []⟩).trace =
      [SI4735_CP_WRITE8 :: frame.map (fun b => b % 256)] ∧
    frames (sendCommandInternal chip frame
      ⟨construct k old k.INTERFACE_I2C pinPower pinReset pinGPO2 pinSEN, c, []⟩).trace =
      [frame.map (fun b => b % 256)] := by
  have e1 : k.INTERFACE_SPI % 256 = k.INTERFACE_SPI := Nat.mod_eq_of_lt hspi
  have e2 : k.INTERFACE_I2C % 256 = k.INTERFACE_I2C := Nat.mod_eq_of_lt hi2c
  have e3 : pinSEN % 256 = pinSEN := Nat.mod_eq_of_lt hsen
  have hH : SI4735_I2C_ADDR_H = 0x63 := by decide
  have hL : SI4735_I2C_ADDR_L = 0x11 := by decide
  have a1 : (construct k old k.INTERFACE_I2C pinPower pinReset pinGPO2 pinSEN).i2caddr =
      (if pinSEN = k.PIN_SEN_HWH then 0x63 else 0x11) := by
    unfold construct
    simp only [e2, e3, hne, if_false]
    by_cases hp : pinSEN = k.PIN_SEN_HWH
    · rw [if_pos hp, if_pos hp]; exact hH
    · rw [if_neg hp, if_neg hp]; exact hL
  have a2 : (construct k old k.INTERFACE_SPI pinPower pinReset pinGPO2 pinSEN).i2caddr =
      0x00 := by
    unfold construct
    simp [e1]
  refine ⟨a1, a2, hH, hL, ?_, ?_⟩
  · rw [sendCommandInternal_frames]
    simp [a2, frames]
  · rw [sendCommandInternal_frames]
    have : (construct k old k.INTERFACE_I2C pinPower pinReset pinGPO2 pinSEN).i2caddr ≠ 0 := by
      rw [a1]; split <;> decide
    simp [this, frames]

/-- C8 at the example constants: strap pin wired high gives address `0x63`. -/
theorem construct_i2caddr_witness :
    sampleConsts.INTERFACE_I2C ≠ sampleConsts.INTERFACE_SPI ∧
    sampleConsts.INTERFACE_SPI < 256 ∧ sampleConsts.INTERFACE_I2C < 256 ∧ 0xFF < 256 ∧
    (construct sampleConsts (idleDriver Mode.AM) sampleConsts.INTERFACE_I2C 8 9 2
      0xFF).i2caddr = (if 0xFF = sampleConsts.PIN_SEN_HWH then 0x63 else 0x11) :=
  ⟨by decide, by decide, by decide, by decide,
   (construct_i2caddr sampleConsts (idleDriver Mode.AM) 8 9 2 0xFF readyChip () []
      (by decide) (by decide) (by decide) (by decide)).1⟩

/-! ## C9 and C10: band limits programmed by `setMode` -/

theorem setMode_stalls {σ : Type} (chip : Chip σ) (k : Consts) (n : Nat)
    (setVolume : Nat → Action σ Unit) (minvol : Bool) (mode : Mode)
    (powerdown xosc interrupt : Bool) (w : World σ) :
    (setMode (sendCommand chip k n) k setVolume minvol mode powerdown xosc interrupt
      w).result = none ∧
    frames (setMode (sendCommand chip k n) k setVolume minvol mode powerdown xosc interrupt
      w).world.trace = frames w.trace := by
  unfold setMode
  cases powerdown
  · simp only [Bool.false_eq_true, if_false, Run.ret_bind]
    by_cases hi : w.drv.interrupt <;> cases mode <;>
      simp only [hi, if_true, if_false, Bool.false_eq_true] <;>
      refine ⟨(sendCommand_bind chip k n _ _ _).1,
              (sendCommand_bind chip k n _ _ _).2.trans ?_⟩ <;>
      simp [World.log, frames_append, frames]
  · exact bind_of_stalled _ _ _ (by unfold end_; exact sendCommand_bind chip k n _ w _)

/-- What `setMode` hands to the command layer in mode SW: with the frames
written at once (two-wire bus), the last two frames set the band-bottom
property to `0x08FC` and the band-top property to `0x59D8`. -/
theorem setMode_SW_over_writeOnly {σ : Type} (chip : Chip σ) (k : Consts) (minvol : Bool)
    (powerdown xosc interrupt : Bool) (w : World σ) (hbus : w.drv.i2caddr ≠ 0) :
    (setMode (writeOnly chip) k noVolume minvol Mode.SW powerdown xosc interrupt w).result
      = some () ∧
    ∃ pre,
      frames (setMode (writeOnly chip) k noVolume minvol Mode.SW powerdown xosc
        interrupt w).world.trace =
      pre ++
        [[k.CMD_SET_PROPERTY % 256, 0, highByte k.PROP_AM_SEEK_BAND_BOTTOM,
          lowByte k.PROP_AM_SEEK_BAND_BOTTOM, 0x08, 0xFC, 0, 0],
         [k.CMD_SET_PROPERTY % 256, 0, highByte k.PROP_AM_SEEK_BAND_TOP,
          lowByte k.PROP_AM_SEEK_BAND_TOP, 0x59, 0xD8, 0, 0]] := by
  have key : ∀ (l : List (List Nat)) (a b : List Nat) (m : List (List Nat)),
      ∃ pre, l ++ (m ++ [a, b]) = pre ++ [a, b] := fun l a b m => ⟨l ++ m, by simp⟩
  unfold setMode
  cases powerdown <;> cases minvol <;> cases interrupt <;>
    by_cases hg : w.drv.pinGPO2 = k.PIN_GPO2_HW <;> by_cases hint : w.drv.interrupt <;>
    simp [setProperty_writeOnly, unMute, end_, noVolume, writeOnly, delay, World.log, Run.ret,
      Run.bind, frames_append, frames, sendCommandInternal_frames, hbus, hg, hint,
      highByte_mod, lowByte_mod, highByte, lowByte] <;>
    first
      | exact key _ _ _ [_, _, _]
      | exact key _ _ _ [_, _, _, _]
      | exact key _ _ _ [_, _, _, _, _]
      | exact key _ _ _ [_, _, _, _, _, _]

/-- What `setMode` hands to the command layer in mode LW: with the frames
written at once (two-wire bus), the last two frames both address the
band-bottom property, with the values `0x0099` and `0x0117`. -/
theorem setMode_LW_over_writeOnly {σ : Type} (chip : Chip σ) (k : Consts) (minvol : Bool)
    (powerdown xosc interrupt : Bool) (w : World σ) (hbus : w.drv.i2caddr ≠ 0) :
    (setMode (writeOnly chip) k noVolume minvol Mode.LW powerdown xosc interrupt w).result
      = some () ∧
    ∃ pre,
      frames (setMode (writeOnly chip) k noVolume minvol Mode.LW powerdown xosc
        interrupt w).world.trace =
      pre ++
        [[k.CMD_SET_PROPERTY % 256, 0, highByte k.PROP_AM_SEEK_BAND_BOTTOM,
          lowByte k.PROP_AM_SEEK_BAND_BOTTOM, 0x00, 0x99, 0, 0],
         [k.CMD_SET_PROPERTY % 256, 0, highByte k.PROP_AM_SEEK_BAND_BOTTOM,
          lowByte k.PROP_AM_SEEK_BAND_BOTTOM, 0x01, 0x17, 0, 0]] := by
  have key : ∀ (l : List (List Nat)) (a b : List Nat) (m : List (List Nat)),
      ∃ pre, l ++ (m ++ [a, b]) = pre ++ [a, b] := fun l a b m => ⟨l ++ m, by simp⟩
  unfold setMode
  cases powerdown <;> cases minvol <;> cases interrupt <;>
    by_cases hg : w.drv.pinGPO2 = k.PIN_GPO2_HW <;> by_cases hint : w.drv.interrupt <;>
    simp [setProperty_writeOnly, unMute, end_, noVolume, writeOnly, delay, World.log, Run.ret,
      Run.bind, frames_append, frames, sendCommandInternal_frames, hbus, hg, hint,
      highByte_mod, lowByte_mod, highByte, lowByte] <;>
    first
      | exact key _ _ _ [_, _, _]
      | exact key _ _ _ [_, _, _, _]
      | exact key _ _ _ [_, _, _, _, _]
      | exact key _ _ _ [_, _, _, _, _, _]

/-- C9 (code defect). For every chip, fuel, state, mode and flags, `setMode`
does not return and writes no frame; in mode SW in particular neither the
band-bottom nor the band-top property is written before a seek could be
attempted. -/
theorem setMode_writes_no_band_limit {σ : Type} (chip : Chip σ) (k : Consts) (n : Nat)
    (setVolume : Nat → Action σ Unit) (minvol : Bool) (mode : Mode)
    (powerdown xosc interrupt : Bool) (w : World σ) :
    (setMode (sendCommand chip k n) k setVolume minvol mode powerdown xosc interrupt
      w).result = none ∧
    frames (setMode (sendCommand chip k n) k setVolume minvol mode powerdown xosc interrupt
      w).world.trace = frames w.trace ∧
    frames (setMode (sendCommand readyChip sampleConsts n) sampleConsts noVolume false
      Mode.SW false true false (idleWorld Mode.FM)).world.trace = [] := by
  refine ⟨(setMode_stalls chip k n setVolume minvol mode powerdown xosc interrupt w).1,
          (setMode_stalls chip k n setVolume minvol mode powerdown xosc interrupt w).2, ?_⟩
  rw [(setMode_stalls _ _ _ _ _ _ _ _ _ _).2]; rfl

/-- C10 (code defect). In mode LW `setMode` never writes the band-top property:
run on the driver it does not return and writes no frame at all; and with the
frames written at once the seven frames it hands to the command layer end with
two writes of the band-bottom property (`0x3400` in the example constants),
first 153 (`0x0099`), then 279 (`0x0117`), and none addresses the band-top
property (`0x3401`). -/
theorem setMode_LW_never_programs_band_top (n : Nat) :
    (setMode (sendCommand readyChip sampleConsts n) sampleConsts noVolume false Mode.LW
      false true false (idleWorld Mode.FM)).result = none ∧
    frames (setMode (sendCommand readyChip sampleConsts n) sampleConsts noVolume false
      Mode.LW false true false (idleWorld Mode.FM)).world.trace = [] ∧
    frames (setMode (writeOnly readyChip) sampleConsts noVolume false Mode.LW
      false true false (idleWorld Mode.FM)).world.trace =
      [[0x01, 0xD1, 0x05, 0, 0, 0, 0, 0], [0x80, 0x02, 0, 0, 0, 0, 0, 0],
       [0x81, 0x04, 0, 0, 0, 0, 0, 0], [0x12, 0, 0x00, 0x01, 0x00, 0x05, 0, 0],
       [0x12, 0, 0x40, 0x01, 0x00, 0x00, 0, 0], [0x12, 0, 0x34, 0x00, 0x00, 0x99, 0, 0],
       [0x12, 0, 0x34, 0x00, 0x01, 0x17, 0, 0]] := by
  refine ⟨(setMode_stalls _ _ _ _ _ _ _ _ _ _).1, ?_, by decide⟩
  rw [(setMode_stalls _ _ _ _ _ _ _ _ _ _).2]; rfl

/-! ## C11: the tune frame of `setFrequency` -/

/-- What `setFrequency` hands to the command layer: with the frames written at
once, the first frame it puts on the bus (after the write preamble on the
serial-peripheral bus) is `[FM_TUNE_FREQ, 0, f / 256, f % 256, 0, 0, 0, 0]` in
mode FM and `[AM_TUNE_FREQ, 0, f / 256, f % 256, 0, sw, 0, 0]` in modes AM, SW
and LW, where `sw` is `0x01` in mode SW and `0x00` otherwise. -/
theorem setFrequency_over_writeOnly {σ : Type} (chip : Chip σ) (k : Consts)
    (f : Nat) (w : World σ) (hf : f < 65536) :
    ∃ post,
      frames (setFrequency (writeOnly chip) k f w).world.trace =
        frames w.trace ++
          ((if w.drv.i2caddr = 0 then [SI4735_CP_WRITE8] else []) ++
            (if w.drv.mode = Mode.FM then
               [k.CMD_FM_TUNE_FREQ % 256, 0x00, f / 256, f % 256, 0, 0, 0, 0]
             else
               [k.CMD_AM_TUNE_FREQ % 256, 0x00, f / 256, f % 256, 0x00,
                (if w.drv.mode = Mode.SW then 0x01 else 0x00), 0, 0])) :: post := by
  have hh : highByte f = f / 256 := by unfold highByte; omega
  have hl : lowByte f = f % 256 := rfl
  have hd : f / 256 % 256 = f / 256 := by omega
  unfold setFrequency
  by_cases hb : w.drv.i2caddr = 0 <;> cases hm : w.drv.mode <;>
    simp [completeTune, enableRDS, setProperty_writeOnly, writeOnly, delay, World.log,
      Run.ret, Run.bind, frames_append, frames, sendCommandInternal_frames, hm, hb, hh, hl,
      hd]

/-- C11 (code defect). For every chip, fuel, frequency and state,
`setFrequency` puts no frame on the bus: the tune frame it hands to
`sendCommand` is never written.  In particular, in mode SW with `f = 9910` the
frame `[AM_TUNE_FREQ, 0, 0x26, 0xB6, 0, 0x01, 0, 0]` is not among the frames
written, and in mode FM neither is `[FM_TUNE_FREQ, 0, 0x26, 0xB6, 0, 0, 0, 0]`. -/
theorem setFrequency_writes_no_tune_frame {σ : Type} (chip : Chip σ) (k : Consts)
    (n f : Nat) (w : World σ) :
    frames (setFrequency (sendCommand chip k n) k f w).world.trace = frames w.trace ∧
    [0x40, 0x00, 0x26, 0xB6, 0x00, 0x01, 0, 0] ∉
      frames (setFrequency (sendCommand readyChip sampleConsts n) sampleConsts 9910
        (idleWorld Mode.SW)).world.trace ∧
    [0x20, 0x00, 0x26, 0xB6, 0, 0, 0, 0] ∉
      frames (setFrequency (sendCommand readyChip sampleConsts n) sampleConsts 9910
        (idleWorld Mode.FM)).world.trace := by
  refine ⟨(setFrequency_stalls chip k n f w).2, ?_, ?_⟩ <;>
    rw [(setFrequency_stalls _ _ _ _ _).2] <;> simp [idleWorld, frames]

/-! ## C12: the interrupt-enable value written by `setMode` -/

/-- A bitwise or with a non-zero operand is non-zero. -/
theorem lor_ne_zero_left (a b : Nat) (h : a ≠ 0) : a ||| b ≠ 0 := by
  intro h0
  obtain ⟨i, hi⟩ := Nat.ne_zero_implies_bit_true h
  have : (a ||| b).testBit i = true := by simp [Nat.testBit_or, hi]
  rw [h0] at this
  simp at this

/-- Whenever the CTS-enable flag is a non-zero constant, the value `setMode`
computes for `GPO_IEN` is `RDSIEN | STCIEN`, whatever the mode: the flag ends up
in the condition of the conditional operator, not in the value. -/
theorem gpoIenValue_eq (k : Consts) (mode : Mode) (h : k.FLG_CTSIEN ≠ 0) :
    gpoIenValue k mode = word 0x00 (k.FLG_RDSIEN ||| k.FLG_STCIEN) := by
  unfold gpoIenValue
  have : truthy (k.FLG_CTSIEN ||| (if mode = Mode.FM then 1 else 0)) = true := by
    have := lor_ne_zero_left k.FLG_CTSIEN (if mode = Mode.FM then 1 else 0) h
    simpa [truthy] using this
  rw [this]
  simp

/-- C12 (code defect). With GPO2 wired and the example constants
(`CTSIEN = 0x80`, `RDSIEN = 0x04`, `STCIEN = 0x01`), the value `setMode` computes
for `GPO_IEN` is `0x0005` in every mode: the CTS-enable bit is clear, and the
RDS-enable bit is set also outside FM, so the low byte differs from
`CTSIEN | STCIEN | (RDSIEN if FM)`.  With the frames written at once the frame
`SET_PROPERTY GPO_IEN := 0x0005` is among those handed to the command layer; run
on the driver, `setMode` writes no frame at all. -/
theorem setMode_gpo_ien_value (n : Nat) (mode : Mode) :
    (idleWorld Mode.FM).drv.pinGPO2 ≠ sampleConsts.PIN_GPO2_HW ∧
    gpoIenValue sampleConsts mode = 0x0005 ∧
    lowByte (gpoIenValue sampleConsts mode) &&& sampleConsts.FLG_CTSIEN = 0 ∧
    lowByte (gpoIenValue sampleConsts mode) &&& sampleConsts.FLG_RDSIEN ≠ 0 ∧
    lowByte (gpoIenValue sampleConsts mode) ≠
      (sampleConsts.FLG_CTSIEN ||| sampleConsts.FLG_STCIEN |||
        (if mode = Mode.FM then sampleConsts.FLG_RDSIEN else 0)) ∧
    [0x12, 0x00, 0x00, 0x01, 0x00, 0x05, 0, 0] ∈
      frames (setMode (writeOnly readyChip) sampleConsts noVolume false mode
        false true false (idleWorld Mode.FM)).world.trace ∧
    frames (setMode (sendCommand readyChip sampleConsts n) sampleConsts noVolume false mode
      false true false (idleWorld Mode.FM)).world.trace = [] := by
  refine ⟨by decide, ?_, ?_, ?_, ?_, ?_, ?_⟩
  · cases mode <;> decide
  · cases mode <;> decide
  · cases mode <;> decide
  · cases mode <;> decide
  · cases mode <;> decide
  · rw [(setMode_stalls _ _ _ _ _ _ _ _ _ _).2]; rfl

/-! ## C13: the interrupt handler alternates between its two phases -/

/-- One invocation in the armed phase: exactly one command write, the
`GET_INT_STATUS` frame, is appended; the driver state (the status cache
included) is unchanged; the handler moves to the second phase. -/
theorem isr_phase_one {σ : Type} (chip : Chip σ) (k : Consts) (w : World σ) :
    (interruptServiceRoutine chip k (false, w)).1 = true ∧
    (interruptServiceRoutine chip k (false, w)).2.drv = w.drv ∧
    (interruptServiceRoutine chip k (false, w)).2.trace =
      w.trace ++ [Event.tx w.drv.seeking
        ((if w.drv.i2caddr = 0 then [SI4735_CP_WRITE8] else []) ++
          [k.CMD_GET_INT_STATUS % 256, 0, 0, 0, 0, 0, 0, 0])] := by
  unfold interruptServiceRoutine sendCommandInternal
  by_cases h : w.drv.i2caddr = 0 <;> simp [h]

/-- One invocation in the second phase: exactly one status-byte read is
appended and its byte is stored in the status cache; no command is written;
the handler is armed again. -/
theorem isr_phase_two {σ : Type} (chip : Chip σ) (k : Consts) (w : World σ) :
    (interruptServiceRoutine chip k (true, w)).1 = false ∧
    (interruptServiceRoutine chip k (true, w)).2.drv =
      { w.drv with status := (chip.status w.chip).1 % 256 } ∧
    (interruptServiceRoutine chip k (true, w)).2.trace =
      w.trace ++ [Event.rx1 ((chip.status w.chip).1 % 256)] := by
  unfold interruptServiceRoutine updateStatus
  simp

/-- After an even number of invocations from the armed phase the handler is
armed again. -/
theorem isrRuns_even {σ : Type} (chip : Chip σ) (k : Consts) (w : World σ) (n : Nat) :
    (isrRuns chip k (2 * n) (false, w)).1 = false := by
  induction n with
  | zero => rfl
  | succ n ih =>
    have e : 2 * (n + 1) = (2 * n + 1) + 1 := by omega
    rw [e]
    simp only [isrRuns]
    generalize isrRuns chip k (2 * n) (false, w) = st at ih
    obtain ⟨b, w1⟩ := st
    simp only at ih
    subst ih
    simp [interruptServiceRoutine]

/-- C13. Starting from the armed phase, for every `n`: before the `(2n+1)`-th
invocation the handler is armed; that invocation appends exactly one event, the
write of the `GET_INT_STATUS` frame, leaves the driver state (hence the cached
status byte) unchanged and leaves the handler in the second phase; the
`(2n+2)`-th invocation appends exactly one event, a status-byte read, stores
that byte in the status cache, writes no command and arms the handler again.
So after every even number of invocations the handler is armed and, once a
read has happened, the cache holds the byte of the latest read. -/
theorem isr_flip_flop {σ : Type} (chip : Chip σ) (k : Consts) (w : World σ) (n : Nat) :
    (isrRuns chip k (2 * n) (false, w)).1 = false ∧
    (isrRuns chip k (2 * n + 1) (false, w)).1 = true ∧
    (isrRuns chip k (2 * n + 1) (false, w)).2.drv =
      (isrRuns chip k (2 * n) (false, w)).2.drv ∧
    (isrRuns chip k (2 * n + 1) (false, w)).2.trace =
      (isrRuns chip k (2 * n) (false, w)).2.trace ++
        [Event.tx (isrRuns chip k (2 * n) (false, w)).2.drv.seeking
          ((if (isrRuns chip k (2 * n) (false, w)).2.drv.i2caddr = 0
            then [SI4735_CP_WRITE8] else []) ++
           [k.CMD_GET_INT_STATUS % 256, 0, 0, 0, 0, 0, 0, 0])] ∧
    (isrRuns chip k (2 * n + 2) (false, w)).1 = false ∧
    (isrRuns chip k (2 * n + 2) (false, w)).2.trace =
      (isrRuns chip k (2 * n + 1) (false, w)).2.trace ++
        [Event.rx1 ((chip.status (isrRuns chip k (2 * n + 1) (false, w)).2.chip).1 % 256)] ∧
    (isrRuns chip k (2 * n + 2) (false, w)).2.drv =
      { (isrRuns chip k (2 * n + 1) (false, w)).2.drv with
        status := (chip.status (isrRuns chip k (2 * n + 1) (false, w)).2.chip).1 % 256 } := by
  have h0 := isrRuns_even chip k w n
  have e1 : isrRuns chip k (2 * n + 1) (false, w) =
      interruptServiceRoutine chip k (isrRuns chip k (2 * n) (false, w)) := rfl
  have e2 : isrRuns chip k (2 * n + 2) (false, w) =
      interruptServiceRoutine chip k (isrRuns chip k (2 * n + 1) (false, w)) := rfl
  rw [e2, e1]
  generalize isrRuns chip k (2 * n) (false, w) = st at h0
  obtain ⟨b, w0⟩ := st
  simp only at h0
  subst h0
  obtain ⟨p1, p2, p3⟩ := isr_phase_one chip k w0
  have hst : interruptServiceRoutine chip k (false, w0) =
      (true, (interruptServiceRoutine chip k (false, w0)).2) := by
    rw [← p1]
  obtain ⟨q1, q2, q3⟩ := isr_phase_two chip k (interruptServiceRoutine chip k (false, w0)).2
  rw [← hst] at q1 q2 q3
  exact ⟨rfl, p1, p2, p3, q1, q3, q2⟩

/-- The handler on the always-ready chip, four invocations from the armed
phase: two `GET_INT_STATUS` writes alternate with two status reads, and the
cache ends with the byte read last. -/
theorem isr_four_invocations :
    (isrRuns readyChip sampleConsts 4 (false, idleWorld Mode.FM)).1 = false ∧
    busEvents (isrRuns readyChip sampleConsts 4 (false, idleWorld Mode.FM)).2.trace =
      [Event.tx false [0x14, 0, 0, 0, 0, 0, 0, 0], Event.rx1 0x81,
       Event.tx false [0x14, 0, 0, 0, 0, 0, 0, 0], Event.rx1 0x81] ∧
    (isrRuns readyChip sampleConsts 4 (false, idleWorld Mode.FM)).2.drv.status = 0x81 := by
  decide

end Si4735
